import Mathlib

/-
  Verification of the streaming protocol bridge of the claude-max-api-proxy
  repository: a shallow embedding of the frame decoder
  (ClaudeSubprocess.processBuffer), the argument builder and kill logic of
  the subprocess manager, the model-name maps of the adapters, and the
  streaming / non-streaming response handlers of the server routes.

  JavaScript strings are modelled as List Char (the decoder) or String
  (the adapters); token counts as Nat; nullable numbers as Option.
  Wall-clock timestamps (Date.now) are ambient runtime state and are left
  out of the frame records; no claim mentions them.
-/

namespace ClaudeMaxProxy

/- ### Frame Decoder: ClaudeSubprocess.processBuffer -/

/-- Whitespace recognised by the JS String.trim used in processBuffer:
WhiteSpace (tab, VT, FF, space, NBSP, ZWNBSP and the Zs category) plus
LineTerminator (LF, CR, LS, PS). -/
def isWsChar (c : Char) : Bool :=
  [' ', '\t', '\n', '\x0B', '\x0C', '\r', '\u00A0', '\u1680',
   '\u2000', '\u2001', '\u2002', '\u2003', '\u2004', '\u2005',
   '\u2006', '\u2007', '\u2008', '\u2009', '\u200A', '\u2028',
   '\u2029', '\u202F', '\u205F', '\u3000', '\uFEFF'].contains c

/-- Model of line.trim(): drop whitespace from both ends. -/
def trimChars (l : List Char) : List Char :=
  ((l.dropWhile isWsChar).reverse.dropWhile isWsChar).reverse

/-- One character step of buffer.split("\x5cn"): first component is the
completed lines so far, second the currently open line. -/
def splitStep (st : List (List Char) × List Char) (c : Char) :
    List (List Char) × List Char :=
  if c = '\n' then (st.1 ++ [st.2], []) else (st.1, st.2 ++ [c])

/-- buffer.split("\x5cn") followed by lines.pop(): the complete lines and
the trailing fragment that processBuffer keeps as the new carry-over. -/
def splitLines (l : List Char) : List (List Char) × List Char :=
  l.foldl splitStep ([], [])

/-- Events emitted by processBuffer for each complete line: a decoded JSON
value (msg) or a raw non-JSON line (raw).  The JSON parser is the ambient
runtime JSON.parse and is kept as a parameter of the decoder. -/
inductive Ev (α : Type) where
  | msg (value : α)
  | raw (line : List Char)
deriving DecidableEq

/-- Loop body of processBuffer for one complete line: trim, silently drop
blank lines, parse-or-raw. -/
def processLine (parse : List Char → Option α) (line : List Char) :
    List (Ev α) :=
  let trimmed := trimChars line
  if trimmed = [] then []
  else
    match parse trimmed with
    | some v => [Ev.msg v]
    | none => [Ev.raw trimmed]

/-- One stdout data callback: this.buffer += data; this.processBuffer().
Returns the new carry-over buffer and the events emitted for the complete
lines of the extended buffer. -/
def feed (parse : List Char → Option α) (buf chunk : List Char) :
    List Char × List (Ev α) :=
  let p := splitLines (buf ++ chunk)
  (p.2, p.1.flatMap (processLine parse))

/-- Feeding a sequence of stdout chunks one at a time. -/
def feedMany (parse : List Char → Option α) (buf : List Char) :
    List (List Char) → List Char × List (Ev α)
  | [] => (buf, [])
  | c :: cs =>
    let p := feed parse buf c
    let q := feedMany parse p.1 cs
    (q.1, p.2 ++ q.2)

/-- The close-handler flush:
if (this.buffer.trim()) \x7b this.processBuffer() \x7d, with no new data
appended to the buffer. -/
def closeFlush (parse : List Char → Option α) (buf : List Char) :
    List Char × List (Ev α) :=
  if trimChars buf = [] then (buf, []) else feed parse buf []

/- The stdout data handler receives raw bytes and converts each chunk
independently with chunk.toString(), i.e. a complete UTF-8 decode of that
chunk alone, replacing malformed or truncated sequences with U+FFFD.  The
following models that decode (the WHATWG incremental UTF-8 decoder with
replacement, flushed at the end of every chunk). -/

/-- The state of the incremental UTF-8 decoder: continuation bytes still
needed and seen, the partial code point, and the admissible range of the
next continuation byte. -/
structure Utf8DecState where
  needed : Nat
  seen : Nat
  cp : Nat
  lo : Nat
  hi : Nat
deriving DecidableEq

def utf8Init : Utf8DecState := ⟨0, 0, 0, 0x80, 0xBF⟩

def replacementChar : Char := '\uFFFD'

/-- Processing one byte in the initial decoder state: ASCII is emitted,
a valid leading byte opens a multi-byte sequence, anything else is
replaced. -/
def utf8Lead (b : Nat) : List Char × Utf8DecState :=
  if b ≤ 0x7F then ([Char.ofNat b], utf8Init)
  else if 0xC2 ≤ b ∧ b ≤ 0xDF then ([], ⟨1, 0, b % 32, 0x80, 0xBF⟩)
  else if 0xE0 ≤ b ∧ b ≤ 0xEF then
    ([], ⟨2, 0, b % 16, if b = 0xE0 then 0xA0 else 0x80,
          if b = 0xED then 0x9F else 0xBF⟩)
  else if 0xF0 ≤ b ∧ b ≤ 0xF4 then
    ([], ⟨3, 0, b % 8, if b = 0xF0 then 0x90 else 0x80,
          if b = 0xF4 then 0x8F else 0xBF⟩)
  else ([replacementChar], utf8Init)

/-- One byte step of the UTF-8 decoder with replacement: an admissible
continuation byte extends the pending code point; an inadmissible byte
emits a replacement character and is reprocessed as a lead byte. -/
def utf8Step (st : Utf8DecState) (b : Nat) : List Char × Utf8DecState :=
  if st.needed = 0 then utf8Lead b
  else if st.lo ≤ b ∧ b ≤ st.hi then
    let cp := st.cp * 64 + b % 64
    if st.seen + 1 = st.needed then ([Char.ofNat cp], utf8Init)
    else ([], ⟨st.needed, st.seen + 1, cp, 0x80, 0xBF⟩)
  else
    let p := utf8Lead b
    (replacementChar :: p.1, p.2)

def utf8DecodeFrom (st : Utf8DecState) : List Nat → List Char
  | [] => if st.needed = 0 then [] else [replacementChar]
  | b :: bs =>
    let p := utf8Step st b
    p.1 ++ utf8DecodeFrom p.2 bs

/-- chunk.toString(): a full UTF-8 decode of one chunk of bytes, with a
truncated trailing sequence replaced. -/
def bufToString (bytes : List Nat) : List Char :=
  utf8DecodeFrom utf8Init bytes

/-- The stdout data handler at byte level:
this.buffer += chunk.toString(); this.processBuffer(). -/
def byteFeed (parse : List Char → Option α) (buf : List Char)
    (chunk : List Nat) : List Char × List (Ev α) :=
  feed parse buf (bufToString chunk)

/-- Feeding a sequence of byte chunks one at a time through the data
handler. -/
def byteFeedMany (parse : List Char → Option α) (buf : List Char) :
    List (List Nat) → List Char × List (Ev α)
  | [] => (buf, [])
  | c :: cs =>
    let p := byteFeed parse buf c
    let q := byteFeedMany parse p.1 cs
    (q.1, p.2 ++ q.2)

theorem foldl_splitStep_shift (y : List Char) :
    ∀ (ls : List (List Char)) (r : List Char),
      y.foldl splitStep (ls, r) =
        (ls ++ (y.foldl splitStep ([], r)).1,
         (y.foldl splitStep ([], r)).2) := by
  induction y with
  | nil => intro ls r; simp
  | cons c y ih =>
    intro ls r
    simp only [List.foldl_cons, splitStep]
    by_cases h : c = '\n'
    · simp only [h, eq_self_iff_true, if_true]
      rw [ih (ls ++ [r]) [], ih ([] ++ [r]) []]
      simp [List.append_assoc]
    · simp only [if_neg h]
      exact ih ls (r ++ [c])

theorem splitLines_append (x y : List Char) :
    splitLines (x ++ y) =
      ((splitLines x).1 ++ (y.foldl splitStep ([], (splitLines x).2)).1,
       (y.foldl splitStep ([], (splitLines x).2)).2) := by
  unfold splitLines
  rw [List.foldl_append]
  exact foldl_splitStep_shift y _ _

theorem foldl_splitStep_rest_no_nl (y : List Char) :
    ∀ st : List (List Char) × List Char, '\n' ∉ st.2 →
      '\n' ∉ (y.foldl splitStep st).2 := by
  induction y with
  | nil => intro st h; exact h
  | cons c y ih =>
    intro st h
    simp only [List.foldl_cons, splitStep]
    by_cases hc : c = '\n'
    · refine ih _ ?_
      simp [hc]
    · refine ih _ ?_
      simp only [if_neg hc, List.mem_append, List.mem_singleton]
      rintro (h1 | h1)
      · exact h h1
      · exact hc h1.symm

theorem foldl_splitStep_no_nl :
    ∀ (y : List Char), '\n' ∉ y →
      ∀ (ls : List (List Char)) (r : List Char),
        y.foldl splitStep (ls, r) = (ls, r ++ y) := by
  intro y
  induction y with
  | nil => intro _ ls r; simp
  | cons c y ih =>
    intro hy ls r
    have hc : c ≠ '\n' := fun h => hy (h ▸ List.mem_cons_self c y)
    have hy' : '\n' ∉ y := fun h => hy (List.mem_cons_of_mem c h)
    simp only [List.foldl_cons, splitStep, if_neg hc]
    rw [ih hy' ls (r ++ [c])]
    simp

theorem splitLines_no_nl (l : List Char) (h : '\n' ∉ l) :
    splitLines l = ([], l) := by
  unfold splitLines
  simpa using foldl_splitStep_no_nl l h [] []

theorem splitLines_rest_no_nl (l : List Char) :
    '\n' ∉ (splitLines l).2 :=
  foldl_splitStep_rest_no_nl l ([], []) (by simp)

theorem feed_append (parse : List Char → Option α) (buf c d : List Char) :
    feed parse buf (c ++ d) =
      ((feed parse (feed parse buf c).1 d).1,
       (feed parse buf c).2 ++ (feed parse (feed parse buf c).1 d).2) := by
  unfold feed
  have h1 : splitLines (buf ++ (c ++ d)) =
      ((splitLines (buf ++ c)).1 ++
        (d.foldl splitStep ([], (splitLines (buf ++ c)).2)).1,
       (d.foldl splitStep ([], (splitLines (buf ++ c)).2)).2) := by
    rw [← List.append_assoc]
    exact splitLines_append (buf ++ c) d
  have h2 : splitLines ((splitLines (buf ++ c)).2 ++ d) =
      ((d.foldl splitStep ([], (splitLines (buf ++ c)).2)).1,
       (d.foldl splitStep ([], (splitLines (buf ++ c)).2)).2) := by
    rw [splitLines_append]
    rw [splitLines_no_nl _ (splitLines_rest_no_nl (buf ++ c))]
    simp
  simp only [h1, h2, List.flatMap_append]

theorem feedMany_eq_feed_flatten (parse : List Char → Option α) :
    ∀ (chunks : List (List Char)) (buf : List Char), '\n' ∉ buf →
      feedMany parse buf chunks = feed parse buf chunks.flatten := by
  intro chunks
  induction chunks with
  | nil =>
    intro buf h
    simp only [feedMany, List.flatten_nil, feed, List.append_nil,
      splitLines_no_nl buf h, List.flatMap_nil]
  | cons c cs ih =>
    intro buf h
    have hrest : '\n' ∉ (feed parse buf c).1 := by
      simp only [feed]
      exact splitLines_rest_no_nl (buf ++ c)
    simp only [feedMany, List.flatten_cons, feed_append parse buf c cs.flatten,
      ih (feed parse buf c).1 hrest]

/-- String-level chunk invariance of processBuffer: for every line parser,
feeding any chunking of the decoded character stream one chunk at a time
(buffer append + processBuffer) yields exactly the same carry-over and
event sequence as feeding the concatenation at once.  The carry-over line
splitting is therefore boundary-invariant; the one step of the data
handler that is not is the per-chunk byte decode, below. -/
theorem processBuffer_chunk_invariant {α : Type}
    (parse : List Char → Option α) (chunks : List (List Char)) :
    feedMany parse [] chunks = feed parse [] chunks.flatten :=
  feedMany_eq_feed_flatten parse chunks [] (by simp)

/-- Claim C1 (code bug): byte-level chunk-boundary invariance fails.  The
data handler decodes each byte chunk independently with
chunk.toString(), so splitting the bytes of the JSON line "é" (0x22 0xC3
0xA9 0x22 0x0A) between the two bytes of the é produces a replacement
character per fragment: the chunked feed emits a different line than the
single-chunk feed, refuting the invariance the spec requires.  The
string-level theorem above shows the rest of the decoder is invariant, so
the per-chunk decode is the slip (a streaming string decoder is the
standard fix). -/
theorem utf8_split_breaks_invariance :
    (byteFeedMany (fun _ => (none : Option Unit)) []
        [[0x22, 0xC3], [0xA9, 0x22, 0x0A]]).2 =
      [Ev.raw ['"', replacementChar, replacementChar, '"']] ∧
    (byteFeed (fun _ => (none : Option Unit)) []
        [0x22, 0xC3, 0xA9, 0x22, 0x0A]).2 =
      [Ev.raw ['"', 'é', '"']] ∧
    (byteFeedMany (fun _ => (none : Option Unit)) []
        [[0x22, 0xC3], [0xA9, 0x22, 0x0A]]).2 ≠
      (byteFeed (fun _ => (none : Option Unit)) []
        [0x22, 0xC3, 0xA9, 0x22, 0x0A]).2 := by
  refine ⟨?_, ?_, ?_⟩ <;> decide

/-- Claim C2 (code bug): the close-handler flush emits nothing.  For a
carry-over without a newline (which the carry-over always is),
processBuffer splits the buffer, pops the single fragment straight back
into the carry-over and iterates over an empty list of complete lines, so
the terminal fragment is silently dropped instead of being parsed or
emitted raw. -/
theorem close_flush_drops_carry {α : Type} (parse : List Char → Option α)
    (buf : List Char) (h : '\n' ∉ buf) :
    closeFlush parse buf = (buf, []) := by
  unfold closeFlush feed
  have hs : splitLines buf = ([], buf) := splitLines_no_nl buf h
  by_cases ht : trimChars buf = [] <;> simp [ht, hs]

/-- Witness for C2: a terminal JSON line lacking its newline is dropped by
the close-handler flush: no event is emitted and the fragment stays in the
buffer. -/
theorem close_flush_drops_carry_witness :
    closeFlush (fun _ => (none : Option Unit))
        ("\x7b\"type\":\"result\"\x7d".data) =
      ("\x7b\"type\":\"result\"\x7d".data, []) :=
  close_flush_drops_carry _ _ (by decide)

/- ### Adapter: cli-to-openai.ts -/

/-- Model of JS needle-search: hay.includes(needle) on character lists. -/
def listIncludes (needle : List Char) : List Char → Bool
  | [] => needle.isEmpty
  | c :: cs => needle.isPrefixOf (c :: cs) || listIncludes needle cs

/-- hay.includes(needle) for strings. -/
def strIncludes (hay needle : String) : Bool :=
  listIncludes needle.data hay.data

/-- normalizeModelName from cli-to-openai.ts.  The argument is
string-or-undefined; the JS guard (!model) is true for undefined and for
the empty string.  An unrecognised non-empty model string is returned
unchanged. -/
def normalizeModelName (model : Option String) : String :=
  match model with
  | none => "claude-sonnet-4"
  | some m =>
    if m = "" then "claude-sonnet-4"
    else if strIncludes m "opus" then "claude-opus-4"
    else if strIncludes m "sonnet" then "claude-sonnet-4"
    else if strIncludes m "haiku" then "claude-haiku-4"
    else m

/-- The usage block of a Claude CLI result message; both token fields may
be absent. -/
structure CliUsage where
  input_tokens : Option Nat
  output_tokens : Option Nat
deriving DecidableEq

/-- A Claude CLI result message: final text, optional usage block, and the
key list of the per-model usage object (Object.keys order) when present. -/
structure ClaudeCliResult where
  result : String
  usage : Option CliUsage
  modelUsage : Option (List String)
deriving DecidableEq

/-- The usage summary of an OpenAI-format response. -/
structure OpenAIUsage where
  prompt_tokens : Nat
  completion_tokens : Nat
  total_tokens : Nat
deriving DecidableEq

/-- result.usage?.input_tokens || 0 -/
def usageInput (u : Option CliUsage) : Nat :=
  match u with
  | some uu => uu.input_tokens.getD 0
  | none => 0

/-- result.usage?.output_tokens || 0 -/
def usageOutput (u : Option CliUsage) : Nat :=
  match u with
  | some uu => uu.output_tokens.getD 0
  | none => 0

/-- The message of one choice of a non-streaming response.  Tool-call
forwarding is disabled in the routes, so the optional tool_calls field is
never populated and is left out. -/
structure OpenAIMessage where
  role : String
  content : String
deriving DecidableEq

structure RespChoice where
  index : Nat
  message : OpenAIMessage
  finish_reason : String
deriving DecidableEq

/-- A non-streaming chat.completion response (created timestamp omitted,
see the header note). -/
structure OpenAIChatResponse where
  id : String
  object : String
  model : String
  choices : List RespChoice
  usage : OpenAIUsage
deriving DecidableEq

/-- cliResultToOpenai from cli-to-openai.ts, with the toolCalls parameter
dropped (the routes never pass it).  modelName is
Object.keys(result.modelUsage)[0] when modelUsage is present, else the
literal "claude-sonnet-4"; both are then normalised. -/
def cliResultToOpenai (result : ClaudeCliResult) (requestId : String) :
    OpenAIChatResponse :=
  let modelName : Option String :=
    match result.modelUsage with
    | some keys => keys.head?
    | none => some "claude-sonnet-4"
  { id := "chatcmpl-" ++ requestId
    object := "chat.completion"
    model := normalizeModelName modelName
    choices := [⟨0, ⟨"assistant", result.result⟩, "stop"⟩]
    usage := ⟨usageInput result.usage, usageOutput result.usage,
              usageInput result.usage + usageOutput result.usage⟩ }

/-- The incremental delta of one streaming choice. -/
structure ChunkDelta where
  role : Option String
  content : Option String
deriving DecidableEq

structure ChunkChoice where
  index : Nat
  delta : ChunkDelta
  finish_reason : Option String
deriving DecidableEq

/-- A streaming chat.completion.chunk frame (created timestamp omitted);
the usage field is attached only to the terminal frame. -/
structure OpenAIChatChunk where
  id : String
  object : String
  model : String
  choices : List ChunkChoice
  usage : Option OpenAIUsage
deriving DecidableEq

/-- createDoneChunk from cli-to-openai.ts: empty delta,
finish_reason "stop", normalised model label, no usage. -/
def createDoneChunk (requestId model : String) : OpenAIChatChunk :=
  { id := "chatcmpl-" ++ requestId
    object := "chat.completion.chunk"
    model := normalizeModelName (some model)
    choices := [⟨0, ⟨none, none⟩, some "stop"⟩]
    usage := none }

/- ### Adapter: openai-to-cli.ts (model extraction) -/

inductive ClaudeModel where
  | opus
  | sonnet
  | haiku
deriving DecidableEq

/-- The MODEL_MAP literal of openai-to-cli.ts as an association list, in
source order. -/
def MODEL_MAP : List (String × ClaudeModel) :=
  [("claude-opus-4", .opus),
   ("claude-opus-4-6", .opus),
   ("claude-sonnet-4", .sonnet),
   ("claude-sonnet-4-5", .sonnet),
   ("claude-sonnet-4-6", .sonnet),
   ("claude-haiku-4", .haiku),
   ("claude-haiku-4-5", .haiku),
   ("claude-code-cli/claude-opus-4", .opus),
   ("claude-code-cli/claude-opus-4-6", .opus),
   ("claude-code-cli/claude-sonnet-4", .sonnet),
   ("claude-code-cli/claude-sonnet-4-5", .sonnet),
   ("claude-code-cli/claude-sonnet-4-6", .sonnet),
   ("claude-code-cli/claude-haiku-4", .haiku),
   ("claude-code-cli/claude-haiku-4-5", .haiku),
   ("claude-max/claude-opus-4", .opus),
   ("claude-max/claude-opus-4-6", .opus),
   ("claude-max/claude-sonnet-4", .sonnet),
   ("claude-max/claude-sonnet-4-5", .sonnet),
   ("claude-max/claude-sonnet-4-6", .sonnet),
   ("claude-max/claude-haiku-4", .haiku),
   ("claude-max/claude-haiku-4-5", .haiku),
   ("opus", .opus),
   ("sonnet", .sonnet),
   ("haiku", .haiku),
   ("opus-max", .opus),
   ("sonnet-max", .sonnet)]

/-- Own-key lookup in the MODEL_MAP object literal. -/
def ownKey (s : String) : Option ClaudeModel :=
  (MODEL_MAP.find? (fun p => p.1 == s)).map (·.2)

/-- The property names every plain object literal inherits from
Object.prototype; indexing MODEL_MAP with one of these yields a truthy
value that is not a model alias (a function, or the prototype object
itself for the dunder proto accessor). -/
def OBJECT_PROTOTYPE_KEYS : List String :=
  ["constructor", "hasOwnProperty", "isPrototypeOf",
   "propertyIsEnumerable", "toLocaleString", "toString", "valueOf",
   "__proto__", "__defineGetter__", "__defineSetter__",
   "__lookupGetter__", "__lookupSetter__"]

/-- A JavaScript property read on the MODEL_MAP literal: an own key
holding a model alias, an inherited Object.prototype member (truthy but
not an alias), or undefined (falsy). -/
inductive JsValue where
  | modelAlias (m : ClaudeModel)
  | protoValue (name : String)
  | jsUndefined
deriving DecidableEq

/-- MODEL_MAP[s] as JavaScript evaluates it: own keys first, then the
prototype chain, then undefined. -/
def jsIndexModelMap (s : String) : JsValue :=
  match ownKey s with
  | some m => .modelAlias m
  | none =>
    if s ∈ OBJECT_PROTOTYPE_KEYS then .protoValue s else .jsUndefined

/-- model.replace(/^(?:claude-code-cli|claude-max)\x2f/, ""): remove one
leading provider prefix if present. -/
def stripProvider (s : String) : String :=
  if "claude-code-cli/".data.isPrefixOf s.data then s.drop 16
  else if "claude-max/".data.isPrefixOf s.data then s.drop 11
  else s

/-- extractModel from openai-to-cli.ts:
if (MODEL_MAP[model]) return MODEL_MAP[model], then the same after
stripping a provider prefix, then the opus default.  Every value present
on the map or its prototype chain is truthy, so the guards distinguish
only undefined. -/
def extractModel (model : String) : JsValue :=
  match jsIndexModelMap model with
  | .jsUndefined =>
    match jsIndexModelMap (stripProvider model) with
    | .jsUndefined => .modelAlias .opus
    | v => v
  | v => v

/- ### Process Session: ClaudeSubprocess (manager.ts) -/

/-- The model alias passed on the command line. -/
def ClaudeModel.toArg : ClaudeModel → String
  | .opus => "opus"
  | .sonnet => "sonnet"
  | .haiku => "haiku"

/-- SubprocessOptions of manager.ts. -/
structure SubprocessOptions where
  model : ClaudeModel
  sessionId : Option String := none
  cwd : Option String := none
  timeout : Option Nat := none
deriving DecidableEq

/-- The OPENCLAW_TOOL_MAPPING_PROMPT constant of manager.ts (the source
joins these lines with a newline). -/
def OPENCLAW_TOOL_MAPPING_PROMPT : String :=
  String.intercalate "\n"
    ["## Tool Name Mapping",
     "You are running inside Claude Code CLI, not OpenClaw. The system prompt may reference OpenClaw tool names — map them to your actual tools:",
     "",
     "### Direct tool replacements",
     "- `exec` or `process` → use `Bash` (run shell commands)",
     "- `read` → use `Read` (read file contents)",
     "- `write` → use `Write` (write files)",
     "- `edit` → use `Edit` (edit files)",
     "- `grep` → use `Grep` (search file contents)",
     "- `find` or `ls` → use `Glob` or `Bash(ls ...)`",
     "- `web_search` → use `WebSearch`",
     "- `web_fetch` → use `WebFetch`",
     "- `image` → use `Read` (Claude Code can read images)",
     "",
     "### OpenClaw CLI tools (use via Bash)",
     "These OpenClaw tools are available through the `openclaw` CLI. Use `Bash` to run them:",
     "- `memory_search` → `Bash(openclaw memory search \"<query>\")` — semantic search across memory files",
     "- `memory_get` → `Read` on the memory file directly, OR `Bash(openclaw memory search \"<query>\")` for discovery",
     "- `message` → `Bash(openclaw message send --to <target> \"<text>\")` — send messages to channels (Telegram, Discord, etc.)",
     "  - Also: `openclaw message read`, `openclaw message broadcast`, `openclaw message react`, `openclaw message poll`",
     "- `cron` → `Bash(openclaw cron list)`, `Bash(openclaw cron add ...)`, `Bash(openclaw cron status)` — manage scheduled jobs",
     "  - Also: `openclaw cron rm`, `openclaw cron enable`, `openclaw cron disable`, `openclaw cron runs`, `openclaw cron run`, `openclaw cron edit`",
     "- `sessions_list` → `Bash(openclaw agent --local --message \"list sessions\")` or check session files directly",
     "- `sessions_history` → `Bash(openclaw agent --local --message \"show history for session <key>\")` or check session files",
     "- `nodes` → `Bash(openclaw nodes status)`, `Bash(openclaw nodes describe <node>)`, `Bash(openclaw nodes invoke --node <id> --command <cmd>)`",
     "  - Also: `openclaw nodes run --node <id> \"<shell command>\"` for running commands on paired nodes",
     "",
     "### Not available via CLI",
     "- `browser` — requires OpenClaw\x27s dedicated browser server (no CLI equivalent)",
     "- `canvas` — requires paired node with canvas capability; use `openclaw nodes invoke` if a node is available",
     "",
     "### Skills",
     "When a skill says to run a bash/python command, use the `Bash` tool directly.",
     "Skills are located in the `skills/` directory relative to your working directory.",
     "To use a skill: `Read` its SKILL.md file first, then follow the instructions using `Bash`.",
     "Run `openclaw skills list --eligible --json` to see all available skills."]

/-- buildArgs from manager.ts: the fixed flag list with the prompt as the
last element of the base vector, then — only if a session id is present —
the pair ["--session-id", sid] pushed after the prompt. -/
def buildArgs (prompt : String) (options : SubprocessOptions) :
    List String :=
  let args :=
    ["--print",
     "--dangerously-skip-permissions",
     "--output-format", "stream-json",
     "--verbose",
     "--include-partial-messages",
     "--model", options.model.toArg,
     "--no-session-persistence",
     "--append-system-prompt", OPENCLAW_TOOL_MAPPING_PROMPT,
     prompt]
  match options.sessionId with
  | some sid => args ++ ["--session-id", sid]
  | none => args

/-- The lifecycle state of a ClaudeSubprocess: whether this.process is
non-null, the isKilled flag, whether the timeout timer is pending, and the
exit code of the child (none while running). -/
structure SubprocState where
  hasProcess : Bool
  isKilled : Bool
  timeoutActive : Bool
  exitCode : Option Int
deriving DecidableEq

/-- kill(signal) from manager.ts: guarded only by
!this.isKilled && this.process; when the guard passes it sets isKilled,
clears the timer and issues this.process.kill(signal).  The second
component lists the signals issued by this call. -/
def killSession (st : SubprocState) (signal : String) :
    SubprocState × List String :=
  if st.isKilled = false ∧ st.hasProcess = true then
    ({ st with isKilled := true, timeoutActive := false }, [signal])
  else (st, [])

/- ### Server routes: handleStreamingResponse / handleNonStreamingResponse -/

/-- The delta payload of a content_block_delta stream event
(event.event.delta): its type tag and optional text. -/
structure DeltaPayload where
  type : String
  text : Option String
deriving DecidableEq

/-- The classified subprocess events the route handlers subscribe to.
contentDelta carries the (possibly absent) delta payload; assistant
carries message.message.model; result carries the result message; errorEv
is the error event emitted by the subprocess (timeout); closeEv carries
the exit code (none when signalled). -/
inductive CliEvent where
  | textBlockStart
  | contentDelta (delta : Option DeltaPayload)
  | assistant (model : String)
  | result (r : ClaudeCliResult)
  | errorEv (msg : String)
  | closeEv (code : Option Int)
deriving DecidableEq

/-- One unit written to the SSE response: a chat.completion.chunk frame, an
inline error object frame, or the literal [DONE] sentinel. -/
inductive SseWrite where
  | chunk (c : OpenAIChatChunk)
  | errorFrame (msg : String)
  | done
deriving DecidableEq

/-- The per-request closure state of handleStreamingResponse; writableEnded
is the res.writableEnded flag (set by res.end()). -/
structure StreamState where
  isFirst : Bool
  lastModel : String
  isComplete : Bool
  hasEmittedText : Bool
  writableEnded : Bool
deriving DecidableEq

def initStreamState : StreamState :=
  { isFirst := true
    lastModel := "claude-sonnet-4"
    isComplete := false
    hasEmittedText := false
    writableEnded := false }

/-- The separator frame written by the text_block_start handler: delta
content is the two-character string of two newlines, raw (unnormalised)
lastModel, no finish reason. -/
def sepChunk (requestId model : String) : OpenAIChatChunk :=
  { id := "chatcmpl-" ++ requestId
    object := "chat.completion.chunk"
    model := model
    choices := [⟨0, ⟨none, some "\n\n"⟩, none⟩]
    usage := none }

/-- A text-delta frame written by the content_delta handler. -/
def deltaChunk (requestId model : String) (role : Option String)
    (text : String) : OpenAIChatChunk :=
  { id := "chatcmpl-" ++ requestId
    object := "chat.completion.chunk"
    model := model
    choices := [⟨0, ⟨role, some text⟩, none⟩]
    usage := none }

/-- (delta?.type === "text_delta" && delta.text) || "" -/
def deltaText (delta : Option DeltaPayload) : String :=
  match delta with
  | some d => if d.type = "text_delta" then d.text.getD "" else ""
  | none => ""

/-- Attaching the usage summary of the result message to the terminal
chunk: prompt/completion from input_tokens/output_tokens (|| 0), total as
their sum; nothing is attached when the result has no usage block. -/
def attachUsage (c : OpenAIChatChunk) (u : Option CliUsage) :
    OpenAIChatChunk :=
  match u with
  | none => c
  | some uu =>
    { c with usage := some ⟨uu.input_tokens.getD 0, uu.output_tokens.getD 0,
                            uu.input_tokens.getD 0 + uu.output_tokens.getD 0⟩ }

/-- The abnormal-exit error message of the close handler. -/
def exitMsg (code : Option Int) : String :=
  "Process exited with code " ++
    (match code with
     | some n => toString n
     | none => "null")

/-- One event dispatch of handleStreamingResponse: the new closure state
and the writes issued to the response, in order.  Each branch mirrors the
corresponding subprocess.on handler of routes.ts; the disabled tool-call
handlers emit nothing. -/
def streamStep (requestId : String) (st : StreamState) (ev : CliEvent) :
    StreamState × List SseWrite :=
  match ev with
  | .textBlockStart =>
    if st.hasEmittedText = true ∧ st.writableEnded = false then
      (st, [.chunk (sepChunk requestId st.lastModel)])
    else (st, [])
  | .contentDelta delta =>
    let text := deltaText delta
    if text ≠ "" ∧ st.writableEnded = false then
      ({ st with isFirst := false, hasEmittedText := true },
       [.chunk (deltaChunk requestId st.lastModel
                  (if st.isFirst then some "assistant" else none) text)])
    else (st, [])
  | .assistant model => ({ st with lastModel := model }, [])
  | .result r =>
    if st.writableEnded = false then
      ({ st with isComplete := true, writableEnded := true },
       [.chunk (attachUsage (createDoneChunk requestId st.lastModel)
                  r.usage),
        .done])
    else ({ st with isComplete := true }, [])
  | .errorEv msg =>
    if st.writableEnded = false then
      ({ st with writableEnded := true }, [.errorFrame msg])
    else (st, [])
  | .closeEv code =>
    if st.writableEnded = false then
      ({ st with writableEnded := true },
       (if code ≠ some 0 ∧ st.isComplete = false
        then [.errorFrame (exitMsg code)] else []) ++ [.done])
    else (st, [])

/-- Dispatching a sequence of subprocess events from a given state,
collecting all writes in order. -/
def runStreamFrom (requestId : String) (st : StreamState) :
    List CliEvent → StreamState × List SseWrite
  | [] => (st, [])
  | ev :: evs =>
    let p := streamStep requestId st ev
    let q := runStreamFrom requestId p.1 evs
    (q.1, p.2 ++ q.2)

/-- A whole streaming request: all events dispatched from the initial
closure state. -/
def runStream (requestId : String) (evs : List CliEvent) :
    StreamState × List SseWrite :=
  runStreamFrom requestId initStreamState evs

/-- Whether an SSE write is the [DONE] sentinel. -/
def isDoneWrite : SseWrite → Bool
  | .done => true
  | _ => false

/-- Number of [DONE] sentinels among the writes. -/
def countDone (outs : List SseWrite) : Nat :=
  (outs.filter isDoneWrite).length

/-- Events handled without ending the response: everything except result,
error and close. -/
def isTerminalEv : CliEvent → Bool
  | .result _ => true
  | .errorEv _ => true
  | .closeEv _ => true
  | _ => false

/-- Whether a trace contains a content_delta event with non-empty
text-delta text (the events that set hasEmittedText). -/
def hasTextDelta : List CliEvent → Bool
  | [] => false
  | .contentDelta d :: rest => (deltaText d != "") || hasTextDelta rest
  | _ :: rest => hasTextDelta rest

/- ### Non-streaming handler -/

/-- The responses handleNonStreamingResponse can send: the success object
built from the last result message, the 500 carrying an emitted error
message, or the 500 citing the exit code when no result was observed. -/
inductive NSOut where
  | success (resp : OpenAIChatResponse)
  | errorMsg (msg : String)
  | exitError (code : Option Int)
deriving DecidableEq

/-- The closure state of handleNonStreamingResponse: the last observed
result message and the responses sent so far (res.headersSent is their
non-emptiness). -/
structure NSState where
  finalResult : Option ClaudeCliResult
  responses : List NSOut
deriving DecidableEq

/-- One event dispatch of handleNonStreamingResponse.  The result handler
records the message; the error handler sends a 500; the close handler
sends the success object when a result was recorded (regardless of exit
code) and otherwise, if nothing was sent yet, the exit-code error.  All
other events have no subscribed handler. -/
def nsStep (requestId : String) (st : NSState) (ev : CliEvent) : NSState :=
  match ev with
  | .result r => { st with finalResult := some r }
  | .errorEv m => { st with responses := st.responses ++ [.errorMsg m] }
  | .closeEv code =>
    match st.finalResult with
    | some r =>
      { st with responses :=
          st.responses ++ [.success (cliResultToOpenai r requestId)] }
    | none =>
      if st.responses.isEmpty then
        { st with responses := st.responses ++ [.exitError code] }
      else st
  | _ => st

/-- A whole non-streaming request. -/
def runNS (requestId : String) (evs : List CliEvent) : NSState :=
  evs.foldl (nsStep requestId) ⟨none, []⟩

/-- The last result message of a trace, as the close handler sees it. -/
def lastResult (evs : List CliEvent) : Option ClaudeCliResult :=
  evs.foldl
    (fun acc ev =>
      match ev with
      | .result r => some r
      | _ => acc)
    none

/-- Events with an error or close handler attached in the non-streaming
path. -/
def isErrCloseEv : CliEvent → Bool
  | .errorEv _ => true
  | .closeEv _ => true
  | _ => false

/- ### Claims about the adapters and the subprocess manager -/

theorem normalizeModelName_some_cases (s : String) :
    normalizeModelName (some s) = "claude-sonnet-4" ∨
    normalizeModelName (some s) = "claude-opus-4" ∨
    normalizeModelName (some s) = "claude-haiku-4" ∨
    normalizeModelName (some s) = s := by
  simp only [normalizeModelName]
  split_ifs <;> simp

/-- Claim C4 counterexample: an unrecognised non-empty model identifier is
returned unchanged by normalizeModelName, not mapped to the mid-tier
sonnet label (nor to any of the three coarse labels). -/
theorem normalizeModelName_unrecognized_unchanged :
    normalizeModelName (some "gpt-4") = "gpt-4" ∧
      "gpt-4" ≠ "claude-sonnet-4" ∧ "gpt-4" ≠ "claude-opus-4" ∧
      "gpt-4" ≠ "claude-haiku-4" := by
  refine ⟨by decide, by decide, by decide, by decide⟩

/-- Claim C4 (amended): normalizeModelName maps an identifier containing
the substring opus to the opus label, else one containing sonnet to the
sonnet label, else one containing haiku to the haiku label; it maps an
absent or empty identifier to the sonnet label; it returns every other
identifier unchanged (rather than defaulting to the sonnet label); and it
is idempotent. -/
theorem normalizeModelName_amended (m : Option String) :
    normalizeModelName (some (normalizeModelName m)) =
      normalizeModelName m ∧
    normalizeModelName none = "claude-sonnet-4" ∧
    normalizeModelName (some "") = "claude-sonnet-4" ∧
    ∀ s : String, s ≠ "" →
      (strIncludes s "opus" = true →
        normalizeModelName (some s) = "claude-opus-4") ∧
      (strIncludes s "opus" = false → strIncludes s "sonnet" = true →
        normalizeModelName (some s) = "claude-sonnet-4") ∧
      (strIncludes s "opus" = false → strIncludes s "sonnet" = false →
        strIncludes s "haiku" = true →
        normalizeModelName (some s) = "claude-haiku-4") ∧
      (strIncludes s "opus" = false → strIncludes s "sonnet" = false →
        strIncludes s "haiku" = false →
        normalizeModelName (some s) = s) := by
  refine ⟨?_, rfl, by decide, ?_⟩
  · cases m with
    | none => decide
    | some s =>
      rcases normalizeModelName_some_cases s with h | h | h | h
      · rw [h]; decide
      · rw [h]; decide
      · rw [h]; decide
      · rw [h]; exact h
  · intro s hs
    refine ⟨?_, ?_, ?_, ?_⟩
    · intro h1
      simp [normalizeModelName, hs, h1]
    · intro h1 h2
      simp [normalizeModelName, hs, h1, h2]
    · intro h1 h2 h3
      simp [normalizeModelName, hs, h1, h2, h3]
    · intro h1 h2 h3
      simp [normalizeModelName, hs, h1, h2, h3]

/-- Witness for C4 (amended): each branch at a concrete identifier. -/
theorem normalizeModelName_amended_witness :
    normalizeModelName (some (normalizeModelName
        (some "claude-3-opus-max"))) =
      normalizeModelName (some "claude-3-opus-max") ∧
    normalizeModelName (some "claude-opus-4-6") = "claude-opus-4" ∧
    normalizeModelName (some "claude-sonnet-4-5-x") = "claude-sonnet-4" ∧
    normalizeModelName (some "claude-haiku-4-5") = "claude-haiku-4" ∧
    normalizeModelName (some "gpt-x") = "gpt-x" :=
  ⟨(normalizeModelName_amended (some "claude-3-opus-max")).1,
   ((normalizeModelName_amended none).2.2.2 "claude-opus-4-6"
      (by decide)).1 (by decide),
   ((normalizeModelName_amended none).2.2.2 "claude-sonnet-4-5-x"
      (by decide)).2.1 (by decide) (by decide),
   ((normalizeModelName_amended none).2.2.2 "claude-haiku-4-5"
      (by decide)).2.2.1 (by decide) (by decide) (by decide),
   ((normalizeModelName_amended none).2.2.2 "gpt-x"
      (by decide)).2.2.2 (by decide) (by decide) (by decide)⟩

/-- Claim C5 counterexample: with a session id present, the last element of
the argument vector is the session id value, not the prompt. -/
theorem buildArgs_sessionId_after_prompt :
    (buildArgs "hello"
        { model := .haiku, sessionId := some "abc123" }).getLast? =
      some "abc123" ∧
    (some "abc123" : Option String) ≠ some "hello" := by
  exact ⟨rfl, by decide⟩

/-- Claim C5 (amended): the prompt is the last element of the argument
vector when no session id is given; when a session id is present the
flag/value pair ["--session-id", sid] is pushed after the prompt, so the
prompt is the last element of the base vector that precedes the pair. -/
theorem buildArgs_prompt_position (prompt : String)
    (o : SubprocessOptions) :
    (o.sessionId = none → (buildArgs prompt o).getLast? = some prompt) ∧
    (∀ sid, o.sessionId = some sid →
      buildArgs prompt o =
        buildArgs prompt { o with sessionId := none } ++
          ["--session-id", sid] ∧
      (buildArgs prompt { o with sessionId := none }).getLast? =
        some prompt) := by
  constructor
  · intro h
    unfold buildArgs
    rw [h]
    rfl
  · intro sid h
    refine ⟨?_, ?_⟩
    · unfold buildArgs
      rw [h]
    · unfold buildArgs
      rfl

/-- Witness for C5 (amended), both branches at concrete inputs. -/
theorem buildArgs_prompt_position_witness :
    (buildArgs "ping" { model := .sonnet }).getLast? = some "ping" ∧
    (buildArgs "ping" { model := .sonnet, sessionId := some "s9" } =
       buildArgs "ping" { model := .sonnet } ++ ["--session-id", "s9"] ∧
     (buildArgs "ping" { model := .sonnet }).getLast? = some "ping") :=
  ⟨(buildArgs_prompt_position "ping" { model := .sonnet }).1 rfl,
   (buildArgs_prompt_position "ping"
      { model := .sonnet, sessionId := some "s9" }).2 "s9" rfl⟩

/-- Claim C8 counterexample: kill on a session whose process has exited
(exit code recorded) but which was never killed is not a no-op: the guard
only checks isKilled and process presence, so the state changes and the
signal call is issued. -/
theorem kill_after_exit_not_noop :
    killSession ⟨true, false, false, some 0⟩ "SIGTERM" =
      (⟨true, true, false, some 0⟩, ["SIGTERM"]) ∧
    (⟨true, true, false, some 0⟩ : SubprocState) ≠
      ⟨true, false, false, some 0⟩ := by
  exact ⟨rfl, by decide⟩

/-- Claim C8 (amended): kill is a no-op on a session already marked killed
or without a process handle, and kill composed with kill equals a single
kill: the second call never sends a signal and leaves the state of the
first call unchanged. -/
theorem kill_idempotent_comp (st : SubprocState) (sig sig2 : String) :
    (st.isKilled = true ∨ st.hasProcess = false →
      killSession st sig = (st, [])) ∧
    killSession (killSession st sig).1 sig2 =
      ((killSession st sig).1, []) := by
  constructor
  · intro h
    unfold killSession
    rcases h with h | h <;> simp [h]
  · unfold killSession
    by_cases hg : st.isKilled = false ∧ st.hasProcess = true
    · simp [hg]
    · simp [hg]

/-- Witness for C8 (amended): a killed session ignores a further kill, and
a double kill of a fresh session equals a single kill. -/
theorem kill_idempotent_comp_witness :
    killSession ⟨true, true, false, none⟩ "SIGKILL" =
      (⟨true, true, false, none⟩, []) ∧
    killSession (killSession ⟨true, false, true, none⟩ "SIGTERM").1
        "SIGTERM" =
      ((killSession ⟨true, false, true, none⟩ "SIGTERM").1, []) :=
  ⟨(kill_idempotent_comp ⟨true, true, false, none⟩ "SIGKILL" "SIGKILL").1
     (Or.inl rfl),
   (kill_idempotent_comp ⟨true, false, true, none⟩ "SIGTERM" "SIGTERM").2⟩

/-- Claim C9 counterexample: indexing the model map with an inherited
Object.prototype property name passes the truthiness guard, so extracting
the model from the request string toString returns the inherited member,
which is none of the three aliases. -/
theorem extractModel_proto_leak :
    extractModel "toString" = JsValue.protoValue "toString" ∧
    JsValue.protoValue "toString" ≠ JsValue.modelAlias ClaudeModel.opus ∧
    JsValue.protoValue "toString" ≠ JsValue.modelAlias ClaudeModel.sonnet ∧
    JsValue.protoValue "toString" ≠ JsValue.modelAlias ClaudeModel.haiku := by
  refine ⟨by decide, by decide, by decide, by decide⟩

/-- Claim C9 (amended): for every model string that does not collide with
an inherited Object.prototype property name — directly or after provider
prefix stripping — extractModel returns one of exactly the three aliases,
and a string absent from the map both directly and after stripping maps
to opus; a colliding string instead leaks the inherited non-alias value. -/
theorem extractModel_total_opus_default (s : String)
    (h1 : s ∉ OBJECT_PROTOTYPE_KEYS)
    (h2 : stripProvider s ∉ OBJECT_PROTOTYPE_KEYS) :
    (extractModel s = .modelAlias .opus ∨
     extractModel s = .modelAlias .sonnet ∨
     extractModel s = .modelAlias .haiku) ∧
    (ownKey s = none → ownKey (stripProvider s) = none →
      extractModel s = .modelAlias .opus) := by
  have e1 : ∀ t : String, t ∉ OBJECT_PROTOTYPE_KEYS →
      jsIndexModelMap t =
        (match ownKey t with
         | some m => JsValue.modelAlias m
         | none => JsValue.jsUndefined) := by
    intro t ht
    unfold jsIndexModelMap
    cases ownKey t <;> simp [ht]
  constructor
  · unfold extractModel
    rw [e1 s h1, e1 _ h2]
    cases hk1 : ownKey s with
    | some m => cases m <;> simp
    | none =>
      cases hk2 : ownKey (stripProvider s) with
      | some m => cases m <;> simp
      | none => simp
  · intro hn1 hn2
    unfold extractModel
    rw [e1 s h1, e1 _ h2, hn1, hn2]

/-- Witness for C9 (amended): an unknown, non-colliding model string maps
to opus. -/
theorem extractModel_total_opus_default_witness :
    extractModel "gpt-4o" = JsValue.modelAlias ClaudeModel.opus :=
  (extractModel_total_opus_default "gpt-4o" (by decide) (by decide)).2
    (by decide) (by decide)

/- ### Claims about the streaming handler -/

theorem countDone_append (a b : List SseWrite) :
    countDone (a ++ b) = countDone a + countDone b := by
  simp [countDone, List.filter_append]

theorem countDone_nil_of_no_done (a : List SseWrite)
    (h : ∀ w ∈ a, isDoneWrite w = false) : countDone a = 0 := by
  simp only [countDone, List.length_eq_zero]
  exact List.filter_eq_nil_iff.mpr (fun w hw => by simp [h w hw])

theorem runStreamFrom_append (rid : String) (xs ys : List CliEvent) :
    ∀ st, runStreamFrom rid st (xs ++ ys) =
      ((runStreamFrom rid (runStreamFrom rid st xs).1 ys).1,
       (runStreamFrom rid st xs).2 ++
         (runStreamFrom rid (runStreamFrom rid st xs).1 ys).2) := by
  induction xs with
  | nil => intro st; simp [runStreamFrom]
  | cons e xs ih =>
    intro st
    simp only [List.cons_append, runStreamFrom, List.append_eq]
    rw [ih]
    simp [List.append_assoc]

theorem streamStep_ended (rid : String) (st : StreamState) (ev : CliEvent)
    (h : st.writableEnded = true) :
    (streamStep rid st ev).2 = [] ∧
      (streamStep rid st ev).1.writableEnded = true := by
  cases ev <;> simp [streamStep, h]

theorem runStreamFrom_ended (rid : String) (evs : List CliEvent) :
    ∀ st, st.writableEnded = true →
      (runStreamFrom rid st evs).2 = [] := by
  induction evs with
  | nil => intro st _; rfl
  | cons e evs ih =>
    intro st h
    have h1 := streamStep_ended rid st e h
    simp only [runStreamFrom]
    rw [h1.1, ih _ h1.2]
    rfl

theorem streamStep_nonterminal (rid : String) (st : StreamState)
    (ev : CliEvent) (hev : isTerminalEv ev = false)
    (h : st.writableEnded = false) :
    (streamStep rid st ev).1.writableEnded = false ∧
    (∀ w ∈ (streamStep rid st ev).2, isDoneWrite w = false) ∧
    (streamStep rid st ev).1.hasEmittedText =
      (st.hasEmittedText ||
        (match ev with
         | .contentDelta d => deltaText d != ""
         | _ => false)) := by
  cases ev with
  | textBlockStart =>
    by_cases he : st.hasEmittedText = true <;>
      simp [streamStep, he, h, isDoneWrite]
  | contentDelta d =>
    by_cases hd : deltaText d = ""
    · simp [streamStep, hd, h]
    · simp [streamStep, hd, h, isDoneWrite]
  | assistant m => simp [streamStep, h]
  | result r => simp [isTerminalEv] at hev
  | errorEv m => simp [isTerminalEv] at hev
  | closeEv c => simp [isTerminalEv] at hev

theorem runStreamFrom_nonterminal (rid : String) (evs : List CliEvent)
    (hevs : ∀ e ∈ evs, isTerminalEv e = false) :
    ∀ st, st.writableEnded = false →
      (runStreamFrom rid st evs).1.writableEnded = false ∧
      (∀ w ∈ (runStreamFrom rid st evs).2, isDoneWrite w = false) ∧
      (runStreamFrom rid st evs).1.hasEmittedText =
        (st.hasEmittedText || hasTextDelta evs) := by
  induction evs with
  | nil =>
    intro st h
    exact ⟨h, by simp [runStreamFrom], by simp [runStreamFrom, hasTextDelta]⟩
  | cons e evs ih =>
    intro st h
    have he : isTerminalEv e = false := hevs e (List.mem_cons_self e evs)
    have hevs' : ∀ x ∈ evs, isTerminalEv x = false :=
      fun x hx => hevs x (List.mem_cons_of_mem e hx)
    have h1 := streamStep_nonterminal rid st e he h
    have h2 := ih hevs' _ h1.1
    simp only [runStreamFrom]
    refine ⟨h2.1, ?_, ?_⟩
    · intro w hw
      rcases List.mem_append.mp hw with hw | hw
      · exact h1.2.1 w hw
      · exact h2.2.1 w hw
    · rw [h2.2.2, h1.2.2]
      cases e <;> simp [hasTextDelta, Bool.or_assoc]

/-- Claim C3 counterexample: on the error path (timeout), the handler
writes the inline error frame and ends the response without any [DONE]
sentinel; the subsequent process close writes nothing, so the stream
carries zero sentinels instead of exactly one. -/
theorem error_path_no_sentinel :
    (runStream "r0"
        [CliEvent.errorEv "Request timed out after 300000ms",
         CliEvent.closeEv (some 143)]).2 =
      [SseWrite.errorFrame "Request timed out after 300000ms"] ∧
    countDone (runStream "r0"
        [CliEvent.errorEv "Request timed out after 300000ms",
         CliEvent.closeEv (some 143)]).2 = 0 := by
  exact ⟨rfl, rfl⟩

/-- Claim C3 (amended): after any prefix of non-terminal events, a result
or a close event produces exactly one [DONE] sentinel for the request
(whatever follows), while an error event produces the inline error frame
and zero sentinels. -/
theorem sentinel_accounting (rid : String) (pre post : List CliEvent)
    (hpre : ∀ e ∈ pre, isTerminalEv e = false) :
    (∀ r, countDone
        (runStream rid (pre ++ CliEvent.result r :: post)).2 = 1) ∧
    (∀ c, countDone
        (runStream rid (pre ++ CliEvent.closeEv c :: post)).2 = 1) ∧
    (∀ m, countDone
        (runStream rid (pre ++ CliEvent.errorEv m :: post)).2 = 0 ∧
      SseWrite.errorFrame m ∈
        (runStream rid (pre ++ CliEvent.errorEv m :: post)).2) := by
  have hp := runStreamFrom_nonterminal rid pre hpre initStreamState rfl
  have hpre0 : countDone (runStreamFrom rid initStreamState pre).2 = 0 :=
    countDone_nil_of_no_done _ hp.2.1
  refine ⟨?_, ?_, ?_⟩
  · intro r
    unfold runStream
    rw [runStreamFrom_append]
    simp only [runStreamFrom]
    have hstep : (streamStep rid (runStreamFrom rid initStreamState pre).1
        (CliEvent.result r)).1.writableEnded = true := by
      simp [streamStep, hp.1]
    rw [runStreamFrom_ended rid post _ hstep]
    rw [countDone_append, hpre0]
    simp [streamStep, hp.1, countDone, isDoneWrite]
  · intro c
    unfold runStream
    rw [runStreamFrom_append]
    simp only [runStreamFrom]
    have hstep : (streamStep rid (runStreamFrom rid initStreamState pre).1
        (CliEvent.closeEv c)).1.writableEnded = true := by
      simp [streamStep, hp.1]
    rw [runStreamFrom_ended rid post _ hstep]
    rw [countDone_append, hpre0]
    by_cases hc : c ≠ some 0 ∧
        (runStreamFrom rid initStreamState pre).1.isComplete = false <;>
      simp [streamStep, hp.1, hc, countDone, isDoneWrite]
  · intro m
    unfold runStream
    rw [runStreamFrom_append]
    simp only [runStreamFrom]
    have hstep : (streamStep rid (runStreamFrom rid initStreamState pre).1
        (CliEvent.errorEv m)).1.writableEnded = true := by
      simp [streamStep, hp.1]
    rw [runStreamFrom_ended rid post _ hstep]
    constructor
    · rw [countDone_append, hpre0]
      simp [streamStep, hp.1, countDone, isDoneWrite]
    · simp [streamStep, hp.1]

/-- Witness for C3 (amended) at concrete traces. -/
theorem sentinel_accounting_witness :
    countDone (runStream "r1"
        ([CliEvent.contentDelta (some ⟨"text_delta", some "hi"⟩)] ++
          CliEvent.result ⟨"hi", none, none⟩ :: [])).2 = 1 ∧
    countDone (runStream "r1"
        ([CliEvent.contentDelta (some ⟨"text_delta", some "hi"⟩)] ++
          CliEvent.closeEv (some 0) :: [])).2 = 1 ∧
    countDone (runStream "r1"
        ([CliEvent.contentDelta (some ⟨"text_delta", some "hi"⟩)] ++
          CliEvent.errorEv "boom" :: [])).2 = 0 :=
  ⟨(sentinel_accounting "r1" _ [] (by decide)).1 ⟨"hi", none, none⟩,
   (sentinel_accounting "r1" _ [] (by decide)).2.1 (some 0),
   ((sentinel_accounting "r1" _ [] (by decide)).2.2 "boom").1⟩

/-- Claim C6: separator emission iff.  After any trace of non-terminal
events, a new text-block start emits exactly one separator frame (delta
content two newlines) when some prior non-empty text delta was emitted in
the request, and nothing otherwise. -/
theorem separator_emission_iff (rid : String) (trace : List CliEvent)
    (h : ∀ e ∈ trace, isTerminalEv e = false) :
    (runStream rid (trace ++ [CliEvent.textBlockStart])).2 =
      (runStream rid trace).2 ++
        (if hasTextDelta trace = true
         then [SseWrite.chunk
                 (sepChunk rid (runStream rid trace).1.lastModel)]
         else []) := by
  have hp := runStreamFrom_nonterminal rid trace h initStreamState rfl
  unfold runStream
  rw [runStreamFrom_append]
  simp only [runStreamFrom]
  by_cases htd : hasTextDelta trace = true
  · have hhe : (runStreamFrom rid initStreamState trace).1.hasEmittedText =
        true := by
      rw [hp.2.2, htd]
      simp [initStreamState]
    simp [streamStep, hhe, hp.1, htd]
  · have hhe : (runStreamFrom rid initStreamState trace).1.hasEmittedText =
        false := by
      rw [hp.2.2]
      simp [initStreamState]
      exact Bool.not_eq_true _ ▸ (by simpa using htd)
    simp [streamStep, hhe, hp.1, htd]

/-- Witness for C6: after one emitted text delta, a text-block start
produces the separator frame. -/
theorem separator_emission_iff_witness :
    (runStream "r2"
        ([CliEvent.contentDelta (some ⟨"text_delta", some "a"⟩)] ++
          [CliEvent.textBlockStart])).2 =
      (runStream "r2"
          [CliEvent.contentDelta (some ⟨"text_delta", some "a"⟩)]).2 ++
        (if hasTextDelta
              [CliEvent.contentDelta (some ⟨"text_delta", some "a"⟩)] = true
         then [SseWrite.chunk (sepChunk "r2"
                 (runStream "r2"
                   [CliEvent.contentDelta
                     (some ⟨"text_delta", some "a"⟩)]).1.lastModel)]
         else []) :=
  separator_emission_iff "r2" _ (by decide)

/-- Claim C7: usage accounting.  A result message whose usage block carries
input i and output o yields, in the terminal streaming frame, usage
prompt i, completion o, total i + o, and the non-streaming response built
from the same result carries the identical usage summary. -/
theorem usage_accounting (rid : String) (st : StreamState)
    (r : ClaudeCliResult) (i o : Nat)
    (hu : r.usage = some ⟨some i, some o⟩)
    (hw : st.writableEnded = false) :
    streamStep rid st (CliEvent.result r) =
      ({ st with isComplete := true, writableEnded := true },
       [SseWrite.chunk { createDoneChunk rid st.lastModel with
          usage := some ⟨i, o, i + o⟩ },
        SseWrite.done]) ∧
    (cliResultToOpenai r rid).usage = ⟨i, o, i + o⟩ := by
  constructor
  · simp [streamStep, hw, attachUsage, hu]
  · simp [cliResultToOpenai, usageInput, usageOutput, hu]

/-- Witness for C7: the spec scenario with input 5 and output 1 totals 6. -/
theorem usage_accounting_witness :
    streamStep "r3" initStreamState
        (CliEvent.result ⟨"hi", some ⟨some 5, some 1⟩, none⟩) =
      ({ initStreamState with isComplete := true, writableEnded := true },
       [SseWrite.chunk { createDoneChunk "r3" initStreamState.lastModel with
          usage := some ⟨5, 1, 5 + 1⟩ },
        SseWrite.done]) ∧
    (cliResultToOpenai ⟨"hi", some ⟨some 5, some 1⟩, none⟩ "r3").usage =
      ⟨5, 1, 5 + 1⟩ :=
  usage_accounting "r3" initStreamState _ 5 1 rfl rfl

/- ### Claim about the non-streaming handler -/

/-- The accumulator step of lastResult. -/
def lastResultStep (acc : Option ClaudeCliResult) (ev : CliEvent) :
    Option ClaudeCliResult :=
  match ev with
  | .result r => some r
  | _ => acc

theorem lastResult_eq_foldl (evs : List CliEvent) :
    lastResult evs = evs.foldl lastResultStep none := by
  unfold lastResult
  congr 1

theorem nsStep_pre (rid : String) (pre : List CliEvent)
    (hpre : ∀ e ∈ pre, isErrCloseEv e = false) :
    ∀ st : NSState,
      (pre.foldl (nsStep rid) st).responses = st.responses ∧
      (pre.foldl (nsStep rid) st).finalResult =
        pre.foldl lastResultStep st.finalResult := by
  induction pre with
  | nil => intro st; exact ⟨rfl, rfl⟩
  | cons e pre ih =>
    intro st
    have he : isErrCloseEv e = false := hpre e (List.mem_cons_self e pre)
    have hpre' : ∀ x ∈ pre, isErrCloseEv x = false :=
      fun x hx => hpre x (List.mem_cons_of_mem e hx)
    have ih' := (fun st => (ih hpre') st)
    cases e with
    | result r =>
      simpa [nsStep, lastResultStep] using ih' { st with finalResult := some r }
    | errorEv m => simp [isErrCloseEv] at he
    | closeEv c => simp [isErrCloseEv] at he
    | textBlockStart => simpa [nsStep, lastResultStep] using ih' st
    | contentDelta d => simpa [nsStep, lastResultStep] using ih' st
    | assistant m => simpa [nsStep, lastResultStep] using ih' st

/-- Claim C10: in non-streaming mode a received result takes precedence
over the exit code.  After any prefix without error or close events, the
close event yields the success response built from the last observed
result message regardless of the exit code, and the exit-code error
response exactly when no result was ever observed. -/
theorem nonstreaming_result_precedence (rid : String)
    (pre : List CliEvent) (code : Option Int)
    (hpre : ∀ e ∈ pre, isErrCloseEv e = false) :
    (runNS rid (pre ++ [CliEvent.closeEv code])).responses =
      (match lastResult pre with
       | some r => [NSOut.success (cliResultToOpenai r rid)]
       | none => [NSOut.exitError code]) := by
  unfold runNS
  rw [List.foldl_append]
  have h := nsStep_pre rid pre hpre ⟨none, []⟩
  rw [lastResult_eq_foldl]
  simp only [List.foldl_cons, List.foldl_nil]
  rcases hlr : pre.foldl lastResultStep none with _ | r
  · have hf : (pre.foldl (nsStep rid) ⟨none, []⟩).finalResult = none := by
      rw [h.2]; exact hlr
    simp [nsStep, hf, h.1]
  · have hf : (pre.foldl (nsStep rid) ⟨none, []⟩).finalResult = some r := by
      rw [h.2]; exact hlr
    simp [nsStep, hf, h.1]

/-- Witness for C10: a result followed by a nonzero-exit close still
produces the success response. -/
theorem nonstreaming_result_precedence_witness :
    (runNS "r4" ([CliEvent.result ⟨"ok", some ⟨some 2, some 3⟩, none⟩] ++
        [CliEvent.closeEv (some 1)])).responses =
      [NSOut.success (cliResultToOpenai ⟨"ok", some ⟨some 2, some 3⟩, none⟩
        "r4")] := by
  have h := nonstreaming_result_precedence "r4"
    [CliEvent.result ⟨"ok", some ⟨some 2, some 3⟩, none⟩] (some 1) (by decide)
  simpa using h

end ClaudeMaxProxy
